import Mathlib

/-!
Shallow embedding of the "Make Arjo Work" Flask application (src/app.py):
a task/reading-list tracker with magic-link authentication, a chat-style
assistant whose function calls mutate the same relational store, a
dual-dialect (SQLite/PostgreSQL) data-access shim, and an optional
read-only calendar integration.

Modelling conventions:
* Each SQL table is a Lean `List` of row structures, kept in insertion
  (rowid) order; `AUTOINCREMENT` id assignment is an explicit counter in
  the `DB` state.
* Python `datetime` values are `Nat` timestamps (seconds);
  `timedelta(minutes=15)` is `15 * 60`.
* Optional/absent dict entries are `Option`; Python truthiness of a value
  (`if not x`) is modelled explicitly (`none` and `some ""`/`some 0` are
  falsy).
* External collaborators (the Gemini endpoint, the arXiv search, the
  Google calendar API, SMTP) are opaque inputs passed in as parameters,
  exactly as the spec treats them.
* Handlers return their JSON payload together with the (possibly updated)
  `DB` state, so frame properties ("never writes to the store") are
  statable.
-/

namespace MakeArjoWork

/-- Row of the `tasks` table (src/app.py `init_db`). -/
structure Task where
  id : Int
  title : String
  description : String
  assigned_by : String
  status : String
  created_at : Nat
  updated_at : Nat
deriving DecidableEq, Repr

/-- Row of the `reads` table. -/
structure Read where
  id : Int
  title : String
  url : String
  author : String
  notes : String
  status : String
  added_by : String
  created_at : Nat
  updated_at : Nat
deriving DecidableEq, Repr

/-- Row of the `users` table. -/
structure UserRow where
  id : Int
  email : String
  is_admin : Int
  created_at : Nat
deriving DecidableEq, Repr

/-- Row rows of the `magic_links` table. -/
structure MagicLink where
  id : Int
  email : String
  token : String
  expires_at : Nat
  used : Int
  created_at : Nat
deriving DecidableEq, Repr

/-- Row of the `chat_history` table. -/
structure ChatMsg where
  id : Int
  role : String
  content : String
  user_email : String
  created_at : Nat
deriving DecidableEq, Repr

/-- The whole relational store, with the autoincrement counters made
explicit. -/
structure DB where
  users : List UserRow
  magic_links : List MagicLink
  tasks : List Task
  reads : List Read
  chat_history : List ChatMsg
  next_user_id : Int
  next_link_id : Int
  next_task_id : Int
  next_read_id : Int
  next_chat_id : Int
deriving DecidableEq, Repr

/-- A freshly initialised store (all tables empty, ids starting at 1). -/
def DB.empty : DB := ⟨[], [], [], [], [], 1, 1, 1, 1, 1⟩

/-! ### `ORDER BY` modelling

The handlers use `ORDER BY created_at DESC` / `ORDER BY id ASC`; we model
them with an insertion sort parameterised by a boolean comparator. -/

/-- Insert `x` into `l` before the first element `y` with `le x y`. -/
def insertLe {α : Type} (le : α → α → Bool) (x : α) : List α → List α
  | [] => [x]
  | y :: ys => if le x y then x :: y :: ys else y :: insertLe le x ys

/-- Insertion sort by the boolean comparator `le`. -/
def sortLe {α : Type} (le : α → α → Bool) : List α → List α
  | [] => []
  | x :: xs => insertLe le x (sortLe le xs)

theorem mem_insertLe {α : Type} (le : α → α → Bool) (x : α) (l : List α) (a : α) :
    a ∈ insertLe le x l ↔ a = x ∨ a ∈ l := by
  induction l with
  | nil => simp [insertLe]
  | cons y ys ih =>
    by_cases h : le x y = true
    · simp [insertLe, h]
    · simp only [insertLe, h, if_neg]
      simp [ih]
      tauto

theorem mem_sortLe {α : Type} (le : α → α → Bool) (l : List α) (a : α) :
    a ∈ sortLe le l ↔ a ∈ l := by
  induction l with
  | nil => simp [sortLe]
  | cons x xs ih => simp [sortLe, mem_insertLe, ih]

/-- `SELECT ... ORDER BY created_at DESC` on the `tasks` table. -/
def orderTasksDesc (l : List Task) : List Task :=
  sortLe (fun a b => b.created_at ≤ a.created_at) l

/-- `SELECT ... ORDER BY created_at DESC` on the `reads` table. -/
def orderReadsDesc (l : List Read) : List Read :=
  sortLe (fun a b => b.created_at ≤ a.created_at) l

/-- `SELECT ... ORDER BY id ASC` on the `chat_history` table. -/
def orderChatAsc (l : List ChatMsg) : List ChatMsg :=
  sortLe (fun a b => a.id ≤ b.id) l

/-! ### Python truthiness helpers -/

/-- Truthiness of an optional string (`if not s:` in Python): absent and
empty strings are falsy. -/
def strTruthy : Option String → Bool
  | none => false
  | some s => s ≠ ""

/-- Truthiness of an optional integer (`if not i:`): absent and `0` are
falsy. -/
def intTruthy : Option Int → Bool
  | none => false
  | some n => n ≠ 0

/-- Python `str.lower()`, code-point-wise (ASCII case mapping, which is
all the `@fydy.ai` check depends on). -/
def pyLower (s : String) : String := ⟨s.data.map Char.toLower⟩

/-- Python `str.strip()`: remove leading and trailing whitespace
code points. -/
def pyStrip (s : String) : String :=
  ⟨((s.data.dropWhile Char.isWhitespace).reverse.dropWhile
      Char.isWhitespace).reverse⟩

/-- Python `str.endswith(suffix)`: code-point suffix test. -/
def pyEndsWith (s suffix : String) : Bool := suffix.data.isSuffixOf s.data

/-! ### The dual-dialect data-access shim (src/app.py 578-637)

Queries are sequences of characters; `str.replace('?', '%s')` on a Python
string replaces each occurrence of the single character `'?'` by `"%s"`. -/

/-- Embeds `query.replace('?', '%s')` from `execute_query`: Python strings
are sequences of code points and the pattern is the single character `?`,
so the replacement maps each character independently. -/
def pyReplaceQs : List Char → List Char
  | [] => []
  | c :: rest => (if c = '?' then ['%', 's'] else [c]) ++ pyReplaceQs rest

/-- The query-text transformation performed by `execute_query`:
under `USE_CLOUD_SQL` every `?` becomes `%s`, otherwise the query is
passed through unchanged. -/
def execute_query_text (useCloudSql : Bool) (q : List Char) : List Char :=
  if useCloudSql then pyReplaceQs q else q

/-- Written from the spec's words ("every `?` placeholder replaced by
`%s`"): each `?` character of the query is independently mapped to the
two-character sequence `%s`, and every other character is kept. Used only
to compare against the source-derived `execute_query_text`. -/
def specReplacePlaceholders (q : List Char) : List Char :=
  (q.map (fun c => if c = '?' then ['%', 's'] else [c])).flatten

/-- ASCII-case-insensitive string comparison: `sqlite3.Row` key lookup
compares column names with `sqlite3_stricmp`. -/
def ciEq (a b : String) : Bool := pyLower a = pyLower b

/-- `sqlite3.Row.__getitem__` with a string key: the value of the first
column whose name matches the key (ASCII-case-insensitively);
`none` models the raised `IndexError` for a missing key. -/
def sqliteRowGet {V : Type} (columns : List String) (row : List V)
    (key : String) : Option V :=
  ((columns.zip row).find? (fun p => ciEq p.1 key)).map (·.2)

/-- `sqlite3.Row.keys()`: the full column-name list of the cursor
description. -/
def sqliteRowKeys {V : Type} (columns : List String) (_row : List V) :
    List String := columns

/-- `PgRowWrapper.__init__` stores `dict(zip(columns, row))`; for a
repeated key a Python dict keeps the LAST inserted value, so lookup
searches the zipped pairs from the right. `none` models `KeyError`. -/
def pgRowGet {V : Type} (columns : List String) (row : List V)
    (key : String) : Option V :=
  (((columns.zip row).reverse).find? (fun p => p.1 = key)).map (·.2)

/-- First-occurrence deduplication with an accumulator of keys already
seen: a Python dict keeps each key at the position of its first
insertion and drops later re-insertions (their values having been
accounted for by `pgRowGet`). -/
def dedupFirstAux (seen : List String) : List String → List String
  | [] => []
  | k :: rest =>
    if k ∈ seen then dedupFirstAux seen rest
    else k :: dedupFirstAux (k :: seen) rest

/-- First-occurrence deduplication of a key list. -/
def dedupFirst (l : List String) : List String := dedupFirstAux [] l

/-- `PgRowWrapper.keys()` = `dict(zip(columns, row)).keys()`. -/
def pgRowKeys {V : Type} (columns : List String) (row : List V) :
    List String :=
  dedupFirst ((columns.zip row).map (·.1))

/-- A fetched row as the rest of the app sees it: either a
`PgRowWrapper` (PostgreSQL path) or a raw `sqlite3.Row`. -/
inductive DbRow (V : Type) where
  | pgWrapped (columns : List String) (row : List V)
  | sqliteRaw (columns : List String) (row : List V)
deriving DecidableEq, Repr

/-- `fetchone` (src/app.py 620-628): `None` is passed through; under
`USE_CLOUD_SQL` the tuple row is wrapped in `PgRowWrapper` with the
cursor-description column names, otherwise the `sqlite3.Row` is returned
as-is. -/
def fetchone {V : Type} (useCloudSql : Bool) (columns : List String)
    (raw : Option (List V)) : Option (DbRow V) :=
  match raw with
  | none => none
  | some r =>
    if useCloudSql then some (.pgWrapped columns r) else some (.sqliteRaw columns r)

/-- Dict-style access on a fetched row (dispatches to the wrapper's
`__getitem__` or to `sqlite3.Row` access). -/
def rowGet {V : Type} : DbRow V → String → Option V
  | .pgWrapped cols r, key => pgRowGet cols r key
  | .sqliteRaw cols r, key => sqliteRowGet cols r key

/-- `keys()` on a fetched row. -/
def rowKeys {V : Type} : DbRow V → List String
  | .pgWrapped cols r => pgRowKeys cols r
  | .sqliteRaw cols r => sqliteRowKeys cols r

/-! ### The assistant's function calls (src/app.py 164-482) -/

/-- Result of the external arXiv search (`search_arxiv`, an out-of-scope
HTTP collaborator): either a dict with an `error` key or one with
`url`/`title`/`authors`. -/
structure ArxivRes where
  error : Option String := none
  url : String := ""
  title : String := ""
  authors : String := ""
deriving DecidableEq, Repr

/-- The `args` dict of a Gemini function call; absent keys are `none`. -/
structure Args where
  id : Option Int := none
  title : Option String := none
  description : Option String := none
  status : Option String := none
  url : Option String := none
  author : Option String := none
  notes : Option String := none
  query : Option String := none
  question : Option String := none
  context : Option String := none
deriving DecidableEq, Repr

/-- A parsed function call (`{"name": ..., "args": ...}`). -/
structure FuncCall where
  name : Option String
  args : Args := {}
deriving DecidableEq, Repr

/-- The result dict returned by `execute_function_call`: a `type` tag
plus the payload keys that the various branches set (`message`, `task`,
`read`, `result`). -/
structure FCResult where
  type : String
  message : String := ""
  task : Option Task := none
  read : Option Read := none
  result : Option ArxivRes := none
deriving DecidableEq, Repr

/-- The function names declared to the model by `get_task_tools`
(src/app.py 164-291), in source order. -/
def get_task_tools_names : List String :=
  ["add_task", "update_task", "delete_task", "mark_task_done",
   "ask_clarification", "add_read", "update_read", "delete_read",
   "mark_read_done", "search_arxiv"]

/-- `execute_function_call` (src/app.py 301-482).

The two `USE_CLOUD_SQL` insert branches (`RETURNING id` versus
`cursor.lastrowid`) both yield the id of the freshly inserted row, which
at this row-level abstraction is the explicit autoincrement counter, so
they are modelled by the single insertion below.  The surrounding
`try/except` only converts driver exceptions into an error result; the
pure model raises none. -/
def execute_function_call (now : Nat) (arxivSearch : String → ArxivRes)
    (func_call : FuncCall) (db : DB) (user_email : String) :
    FCResult × DB :=
  match func_call.name with
  | none => ({ type := "error", message := "No function name provided" }, db)
  | some name =>
    if name = "" then
      ({ type := "error", message := "No function name provided" }, db)
    else
    let args := func_call.args
    if name = "add_task" then
      let title := pyStrip (args.title.getD "")
      if title = "" then
        ({ type := "error", message := "Task title is required" }, db)
      else
        let tid := db.next_task_id
        let t : Task :=
          ⟨tid, title, args.description.getD "", user_email, "pending", now, now⟩
        let db' := { db with tasks := db.tasks ++ [t], next_task_id := tid + 1 }
        match db'.tasks.find? (fun x => x.id = tid) with
        | none => ({ type := "error", message := "Failed to retrieve created task" }, db')
        | some nt => ({ type := "added", task := some nt }, db')
    else if name = "update_task" then
      match args.id with
      | none => ({ type := "error", message := "Task ID is required" }, db)
      | some tid =>
        if tid = 0 then ({ type := "error", message := "Task ID is required" }, db)
        else match db.tasks.find? (fun x => x.id = tid) with
        | none =>
          ({ type := "error", message := "Task #" ++ toString tid ++ " not found" }, db)
        | some task =>
          let db' := { db with tasks := db.tasks.map (fun x =>
            if x.id = tid then
              { x with title := args.title.getD task.title,
                       description := args.description.getD task.description,
                       status := args.status.getD task.status,
                       updated_at := now }
            else x) }
          match db'.tasks.find? (fun x => x.id = tid) with
          | none => ({ type := "error", message := "Failed to retrieve updated task" }, db')
          | some ut => ({ type := "updated", task := some ut }, db')
    else if name = "delete_task" then
      match args.id with
      | none => ({ type := "error", message := "Task ID is required" }, db)
      | some tid =>
        if tid = 0 then ({ type := "error", message := "Task ID is required" }, db)
        else match db.tasks.find? (fun x => x.id = tid) with
        | none =>
          ({ type := "error", message := "Task #" ++ toString tid ++ " not found" }, db)
        | some task =>
          let db' := { db with tasks := db.tasks.filter (fun x => x.id ≠ tid) }
          ({ type := "deleted", task := some task }, db')
    else if name = "mark_task_done" then
      match args.id with
      | none => ({ type := "error", message := "Task ID is required" }, db)
      | some tid =>
        if tid = 0 then ({ type := "error", message := "Task ID is required" }, db)
        else match db.tasks.find? (fun x => x.id = tid) with
        | none =>
          ({ type := "error", message := "Task #" ++ toString tid ++ " not found" }, db)
        | some _ =>
          let db' := { db with tasks := db.tasks.map (fun x =>
            if x.id = tid then { x with status := "done", updated_at := now } else x) }
          match db'.tasks.find? (fun x => x.id = tid) with
          | none => ({ type := "error", message := "Failed to retrieve completed task" }, db')
          | some dt => ({ type := "done", task := some dt }, db')
    else if name = "ask_clarification" then
      ({ type := "clarification" }, db)
    else if name = "add_read" then
      let title := pyStrip (args.title.getD "")
      if title = "" then
        ({ type := "error", message := "Read title is required" }, db)
      else
        let rid := db.next_read_id
        let r : Read :=
          ⟨rid, title, args.url.getD "", args.author.getD "", args.notes.getD "",
           "unread", user_email, now, now⟩
        let db' := { db with reads := db.reads ++ [r], next_read_id := rid + 1 }
        match db'.reads.find? (fun x => x.id = rid) with
        | none => ({ type := "error", message := "Failed to retrieve created read" }, db')
        | some nr => ({ type := "read_added", read := some nr }, db')
    else if name = "update_read" then
      match args.id with
      | none => ({ type := "error", message := "Read ID is required" }, db)
      | some rid =>
        if rid = 0 then ({ type := "error", message := "Read ID is required" }, db)
        else match db.reads.find? (fun x => x.id = rid) with
        | none =>
          ({ type := "error", message := "Read #" ++ toString rid ++ " not found" }, db)
        | some read =>
          let db' := { db with reads := db.reads.map (fun x =>
            if x.id = rid then
              { x with title := args.title.getD read.title,
                       url := args.url.getD read.url,
                       author := args.author.getD read.author,
                       notes := args.notes.getD read.notes,
                       status := args.status.getD read.status,
                       updated_at := now }
            else x) }
          match db'.reads.find? (fun x => x.id = rid) with
          | none => ({ type := "error", message := "Failed to retrieve updated read" }, db')
          | some ur => ({ type := "read_updated", read := some ur }, db')
    else if name = "delete_read" then
      match args.id with
      | none => ({ type := "error", message := "Read ID is required" }, db)
      | some rid =>
        if rid = 0 then ({ type := "error", message := "Read ID is required" }, db)
        else match db.reads.find? (fun x => x.id = rid) with
        | none =>
          ({ type := "error", message := "Read #" ++ toString rid ++ " not found" }, db)
        | some read =>
          let db' := { db with reads := db.reads.filter (fun x => x.id ≠ rid) }
          ({ type := "read_deleted", read := some read }, db')
    else if name = "mark_read_done" then
      match args.id with
      | none => ({ type := "error", message := "Read ID is required" }, db)
      | some rid =>
        if rid = 0 then ({ type := "error", message := "Read ID is required" }, db)
        else match db.reads.find? (fun x => x.id = rid) with
        | none =>
          ({ type := "error", message := "Read #" ++ toString rid ++ " not found" }, db)
        | some _ =>
          let db' := { db with reads := db.reads.map (fun x =>
            if x.id = rid then { x with status := "read", updated_at := now } else x) }
          match db'.reads.find? (fun x => x.id = rid) with
          | none => ({ type := "error", message := "Failed to retrieve completed read" }, db')
          | some dr => ({ type := "read_done", read := some dr }, db')
    else if name = "search_arxiv" then
      let query := pyStrip (args.query.getD "")
      if query = "" then
        ({ type := "error", message := "Search query is required" }, db)
      else
        let result := arxivSearch query
        if result.error.isSome then ({ type := "arxiv_result", result := some result }, db)
        else ({ type := "arxiv_result", result := some result }, db)
    else
      ({ type := "error", message := "Unknown function: " ++ name }, db)

/-! ### Calendar integration (src/app.py 485-526) -/

/-- A raw event of the external Google-calendar response. -/
structure RawEvent where
  id : String
  summary : Option String := none
  description : Option String := none
  start_dateTime : Option String := none
  start_date : Option String := none
  end_dateTime : Option String := none
  end_date : Option String := none
  created : Option String := none
deriving DecidableEq, Repr

/-- An event dict as built by `get_calendar_events` for the task view. -/
structure CalEvent where
  id : String
  title : String
  description : String
  status : String
  event_start : Option String
  event_end : Option String
  assigned_by : String
  created_at : String
deriving DecidableEq, Repr

/-- The environment of the optional calendar integration:
`available` is `GOOGLE_CALENDAR_AVAILABLE` (import succeeded),
`credentials` is the `GOOGLE_CALENDAR_CREDENTIALS` env var, and
`api` is the outcome of the external credential-decoding / events-list
calls inside the `try` block (`none` models a raised exception). -/
structure CalEnv where
  available : Bool
  credentials : Option String
  api : Option (List RawEvent)
deriving DecidableEq, Repr

/-- `get_calendar_events` (src/app.py 485-526).  Reads nothing from and
writes nothing to the relational store: it takes no `DB` at all.
`nowIso` is `datetime.utcnow().isoformat()`. -/
def get_calendar_events (env : CalEnv) (nowIso : String) : List CalEvent :=
  if env.available = false then []
  else if strTruthy env.credentials = false then []
  else match env.api with
  | none => []
  | some events =>
    events.map (fun e =>
      { id := "cal_" ++ (e.id.take 8),
        title := e.summary.getD "Untitled Event",
        description := e.description.getD "",
        status := "EVENT",
        event_start := e.start_dateTime.or e.start_date,
        event_end := e.end_dateTime.or e.end_date,
        assigned_by := "calendar",
        created_at := e.created.getD nowIso })

/-! ### Authentication (src/app.py 823-888) -/

/-- Observable outcome of the `login` POST handler. -/
inductive LoginRes where
  | emailRequired
  | domainError
  | linkSent (email : String)
deriving DecidableEq, Repr

/-- `login` POST branch (src/app.py 823-848): normalise the email with
`.lower().strip()`, reject empty or non-`@fydy.ai` addresses, otherwise
insert a `magic_links` row expiring 15 minutes from now and email the
token (email delivery is an external collaborator and not modelled).
`token` stands for the random `secrets.token_urlsafe(32)`. -/
def login (now : Nat) (token : String) (raw_email : String) (db : DB) :
    LoginRes × DB :=
  let email := pyStrip (pyLower raw_email)
  if email = "" then (.emailRequired, db)
  else if pyEndsWith email "@fydy.ai" = false then (.domainError, db)
  else
    let link : MagicLink :=
      ⟨db.next_link_id, email, token, now + 15 * 60, 0, now⟩
    (.linkSent email,
     { db with magic_links := db.magic_links ++ [link],
               next_link_id := db.next_link_id + 1 })

/-- Observable outcome of the `authenticate` handler. -/
inductive AuthRes where
  | invalidLink (msg : String)
  | loggedIn (user_id : Int) (email : String)
deriving DecidableEq, Repr

/-- `authenticate` (src/app.py 851-888): find the first `magic_links` row
with this exact token, `used = 0` and `expires_at` strictly in the
future; on a miss render `'Invalid or expired link'`, on a hit mark that
row used, get-or-create the user, and establish the session. -/
def authenticate (now : Nat) (token : String) (db : DB) : AuthRes × DB :=
  match db.magic_links.find?
      (fun (l : MagicLink) => l.token = token ∧ l.used = 0 ∧ now < l.expires_at) with
  | none => (.invalidLink "Invalid or expired link", db)
  | some link =>
    let db1 := { db with magic_links := db.magic_links.map (fun (l : MagicLink) =>
      if l.id = link.id then { l with used := 1 } else l) }
    match db1.users.find? (fun (u : UserRow) => u.email = link.email) with
    | some user => (.loggedIn user.id link.email, db1)
    | none =>
      let uid := db1.next_user_id
      let db2 := { db1 with
        users := db1.users ++ [⟨uid, link.email, 0, now⟩],
        next_user_id := uid + 1 }
      (.loggedIn uid link.email, db2)

/-- Whether an `authenticate` outcome established a logged-in session. -/
def AuthRes.success : AuthRes → Bool
  | .loggedIn _ _ => true
  | .invalidLink _ => false

/-! ### The GET handlers (src/app.py 907-928, 1008-1026, 1147-1158)

Each handler runs under `login_required`, so it receives the session
email `sessionEmail`; whether the body actually uses it is exactly what
the multi-tenancy claims are about. -/

/-- An entry of the `GET /api/tasks` JSON response: either a calendar
event or a stored task row. -/
inductive TaskEntry where
  | cal (e : CalEvent)
  | task (t : Task)
deriving DecidableEq, Repr

/-- `get_tasks` (src/app.py 907-928): apply the status filter only for a
truthy status different from `'pending'`; prepend calendar events when
the status is falsy or `'pending'`.  Returns the JSON list and the
resulting store. -/
def get_tasks (env : CalEnv) (nowIso : String) (status : Option String)
    (db : DB) (sessionEmail : String) : List TaskEntry × DB :=
  let _ := sessionEmail
  let rows :=
    if strTruthy status ∧ status ≠ some "pending" then
      orderTasksDesc (db.tasks.filter (fun t => t.status = status.getD ""))
    else
      orderTasksDesc db.tasks
  let tasks := rows.map TaskEntry.task
  let out :=
    if strTruthy status = false ∨ status = some "pending" then
      (get_calendar_events env nowIso).map TaskEntry.cal ++ tasks
    else tasks
  (out, db)

/-- `get_reads` (src/app.py 1008-1026): filter by any truthy status.
(The `try/except` around the query only guards a missing table on first
deploy; the model assumes the schema exists.) -/
def get_reads (status : Option String) (db : DB) (sessionEmail : String) :
    List Read × DB :=
  let _ := sessionEmail
  let rows :=
    if strTruthy status then
      orderReadsDesc (db.reads.filter (fun r => r.status = status.getD ""))
    else
      orderReadsDesc db.reads
  (rows, db)

/-- `get_chat_history` (src/app.py 1147-1158): the 100 first rows (by id
ascending) of the current user's conversation. -/
def get_chat_history (db : DB) (sessionEmail : String) :
    List ChatMsg × DB :=
  ((orderChatAsc (db.chat_history.filter
      (fun m => m.user_email = sessionEmail))).take 100, db)

/-! ### The chat handler and its function-calling loop
(src/app.py 1179-1353)

The external model is an opaque oracle: `oracle 0` is the reply to the
initial `send_message(user_message)` and `oracle k` (`k ≥ 1`) is the
reply to the `k`-th `send_message(function_responses)` round-trip. -/

/-- A part of a model response: optional text and an optional function
call (both may be present on the same part). -/
structure Part where
  text : Option String := none
  function_call : Option FuncCall := none
deriving DecidableEq, Repr

/-- `candidate.content` with its optional `parts` list. -/
structure Content where
  parts : Option (List Part)
deriving DecidableEq, Repr

/-- A response candidate with optional content. -/
structure Candidate where
  content : Option Content
deriving DecidableEq, Repr

/-- A model response (the `response.candidates` attribute may be absent). -/
structure ModelResponse where
  candidates : Option (List Candidate)
deriving DecidableEq, Repr

/-- The parts visited by the nested
`for candidate in response.candidates: for part in candidate.content.parts`
walk (skipping falsy `candidates` / `content` / `parts`). -/
def partsOf (mr : ModelResponse) : List Part :=
  match mr.candidates with
  | none => []
  | some cs => cs.flatMap (fun c =>
      match c.content with
      | none => []
      | some ct => match ct.parts with
        | none => []
        | some ps => ps)

/-- The text accumulated from a response's parts
(`if hasattr(part, 'text') and part.text: ai_response += part.text`). -/
def collectText (ps : List Part) : String :=
  ps.foldl (fun s p =>
    match p.text with
    | some t => if t = "" then s else s ++ t
    | none => s) ""

/-- The function calls parsed from a response's parts. -/
def collectCalls (ps : List Part) : List FuncCall :=
  ps.filterMap (fun p => p.function_call)

/-- A `types.Part.from_function_response` payload sent back to the model:
the `{'status': 'asked'}` acknowledgement for `ask_clarification`, or the
`execute_function_call` result dict. -/
inductive SentResp where
  | asked (name : String)
  | result (name : String) (r : FCResult)
deriving DecidableEq, Repr

/-- State threaded through one chat request: the store connection, the
accumulated `ai_response` text, the `actions_performed` list, and (as
instrumentation for the termination claim) the number of
`send_message(function_responses)` round-trips made so far. -/
structure LoopSt where
  db : DB
  ai_response : String
  actions_performed : List FCResult
  sent : Nat
deriving Repr

/-- The `for func_call in function_calls` body (src/app.py 1271-1294):
`ask_clarification` is acknowledged without touching the store (possibly
promoting its question to the reply text); every other call is executed
against the store, non-error results are recorded in
`actions_performed`, and every call's result is queued as a function
response. -/
def stepCall (now : Nat) (arxivSearch : String → ArxivRes)
    (user_email : String) (c : FuncCall) (st : LoopSt) : SentResp × LoopSt :=
  let func_name := c.name.getD ""
  if func_name = "ask_clarification" then
    let question := c.args.question.getD ""
    let st1 :=
      if question ≠ "" ∧ st.ai_response = "" then
        { st with ai_response := question }
      else st
    let st2 := { st1 with
      actions_performed := st1.actions_performed ++ [{ type := "clarification" }] }
    (.asked func_name, st2)
  else
    let r := execute_function_call now arxivSearch c st.db user_email
    let st1 := { st with
      db := r.2,
      actions_performed :=
        if r.1.type ≠ "error" then st.actions_performed ++ [r.1]
        else st.actions_performed }
    (.result func_name r.1, st1)

/-- Folds `stepCall` over the parsed calls, accumulating the queued
function responses in order. -/
def processCalls (now : Nat) (arxivSearch : String → ArxivRes)
    (user_email : String) :
    List FuncCall → LoopSt → List SentResp × LoopSt
  | [], st => ([], st)
  | c :: rest, st =>
    let hd := stepCall now arxivSearch user_email c st
    let tl := processCalls now arxivSearch user_email rest hd.2
    (hd.1 :: tl.1, tl.2)

/-- One-or-more iterations of the bounded function-calling loop
(`for _ in range(5)`, src/app.py 1250-1300), with the remaining
iteration budget as `fuel`. -/
def chatLoopAux (oracle : Nat → ModelResponse) (now : Nat)
    (arxivSearch : String → ArxivRes) (user_email : String) :
    Nat → ModelResponse → LoopSt → LoopSt
  | 0, _, st => st
  | fuel + 1, response, st =>
    let ps := partsOf response
    let st1 := { st with ai_response := st.ai_response ++ collectText ps }
    let function_calls := collectCalls ps
    if function_calls.isEmpty then st1
    else
      let pr := processCalls now arxivSearch user_email function_calls st1
      if pr.1.isEmpty then pr.2
      else
        let st3 := { pr.2 with sent := pr.2.sent + 1 }
        chatLoopAux oracle now arxivSearch user_email fuel (oracle st3.sent) st3

/-- JSON payload of a successful `POST /api/chat`. -/
structure ChatOut where
  response : String
  actions : List FCResult
  feedback_sends : Nat
deriving Repr

/-- `action_descriptions` built from `actions_performed`
(src/app.py 1303-1323); the payload field is always set for the matching
type, so the `none` alternatives are unreachable. -/
def describeAction (a : FCResult) : List String :=
  if a.type = "added" then
    (a.task.map (fun t => "Added task: " ++ t.title)).toList
  else if a.type = "updated" then
    (a.task.map (fun t => "Updated task #" ++ toString t.id)).toList
  else if a.type = "deleted" then
    (a.task.map (fun t => "Deleted task: " ++ t.title)).toList
  else if a.type = "done" then
    (a.task.map (fun t => "Completed task: " ++ t.title)).toList
  else if a.type = "read_added" then
    (a.read.map (fun r => "Added to reading list: " ++ r.title)).toList
  else if a.type = "read_updated" then
    (a.read.map (fun r => "Updated read #" ++ toString r.id)).toList
  else if a.type = "read_deleted" then
    (a.read.map (fun r => "Removed from reading list: " ++ r.title)).toList
  else if a.type = "read_done" then
    (a.read.map (fun r => "Marked as read: " ++ r.title)).toList
  else if a.type = "arxiv_result" then
    match a.result with
    | some r =>
      if r.error.isSome then []
      else ["Found on arxiv: " ++ (if r.title = "" then "Unknown" else r.title)]
    | none => []
  else []

/-- The `chat` handler (src/app.py 1179-1353): reject an empty message,
run the bounded function-calling loop from the reply to the initial
message, then persist the exchange in `chat_history`.  Context building
(current tasks/reads and prior history fed to the model) only shapes the
oracle's input and is absorbed into the oracle itself. -/
def chat (oracle : Nat → ModelResponse) (now : Nat)
    (arxivSearch : String → ArxivRes) (user_message user_email : String)
    (db : DB) : Option ChatOut × DB :=
  if user_message = "" then (none, db)
  else
    let st0 : LoopSt := { db := db, ai_response := "", actions_performed := [], sent := 0 }
    let stF := chatLoopAux oracle now arxivSearch user_email 5 (oracle 0) st0
    let action_descriptions := stF.actions_performed.flatMap describeAction
    let history_response :=
      let base := pyStrip stF.ai_response
      if action_descriptions.isEmpty then base
      else
        let summary := "[" ++ String.intercalate ", " action_descriptions ++ "]"
        if base = "" then summary else base ++ "\n" ++ summary
    let db1 := stF.db
    let userRow : ChatMsg := ⟨db1.next_chat_id, "user", user_message, user_email, now⟩
    let db2 := { db1 with chat_history := db1.chat_history ++ [userRow],
                          next_chat_id := db1.next_chat_id + 1 }
    let db3 :=
      if history_response = "" then db2
      else
        let aRow : ChatMsg :=
          ⟨db2.next_chat_id, "assistant", history_response, user_email, now⟩
        { db2 with chat_history := db2.chat_history ++ [aRow],
                   next_chat_id := db2.next_chat_id + 1 }
    (some { response := stF.ai_response, actions := stF.actions_performed,
            feedback_sends := stF.sent }, db3)

/-! ## Theorems -/

theorem stepCall_sent (now : Nat) (arx : String → ArxivRes) (u : String)
    (c : FuncCall) (st : LoopSt) :
    ((stepCall now arx u c st).2).sent = st.sent := by
  simp only [stepCall]
  split
  · split <;> rfl
  · rfl

theorem processCalls_sent (now : Nat) (arx : String → ArxivRes) (u : String)
    (calls : List FuncCall) (st : LoopSt) :
    ((processCalls now arx u calls st).2).sent = st.sent := by
  induction calls generalizing st with
  | nil => rfl
  | cons c rest ih =>
    simp only [processCalls]
    rw [ih, stepCall_sent]

theorem chatLoopAux_sent_le (oracle : Nat → ModelResponse) (now : Nat)
    (arx : String → ArxivRes) (u : String) (fuel : Nat)
    (resp : ModelResponse) (st : LoopSt) :
    (chatLoopAux oracle now arx u fuel resp st).sent ≤ st.sent + fuel := by
  induction fuel generalizing resp st with
  | zero => simp [chatLoopAux]
  | succ n ih =>
    simp only [chatLoopAux]
    split
    · show st.sent ≤ st.sent + (n + 1); omega
    · split
      · rw [processCalls_sent]
        show st.sent ≤ st.sent + (n + 1); omega
      · refine le_trans (ih _ _) ?_
        simp only [processCalls_sent]
        show st.sent + 1 + n ≤ st.sent + (n + 1); omega

/-- C2: For every chat request, the function-calling loop in the chat
handler is bounded: whatever the model oracle returns and however many
function calls each response contains, the loop makes at most 5
`send_message(function_responses)` round-trips that feed tool results
back to the model (and, being a total function of its fuel, always
terminates).  Stated both for the loop itself started as the handler
starts it, and for the round-trip count reported by the whole `chat`
handler. -/
theorem C2_chat_loop_bounded (oracle : Nat → ModelResponse) (now : Nat)
    (arx : String → ArxivRes) (msg email : String) (db : DB) :
    (chatLoopAux oracle now arx email 5 (oracle 0)
      { db := db, ai_response := "", actions_performed := [], sent := 0 }).sent ≤ 5 ∧
    ((chat oracle now arx msg email db).1.elim 0 ChatOut.feedback_sends) ≤ 5 := by
  refine ⟨by simpa using chatLoopAux_sent_le oracle now arx email 5 (oracle 0) ⟨db, "", [], 0⟩, ?_⟩
  by_cases h : msg = ""
  · simp [chat, h]
  · simp only [chat, if_neg h, Option.elim]
    simpa using chatLoopAux_sent_le oracle now arx email 5 (oracle 0) ⟨db, "", [], 0⟩

/-- C4: The assistant can invoke exactly the fixed set of ten functions
`add_task`, `update_task`, `delete_task`, `mark_task_done`, `add_read`,
`update_read`, `delete_read`, `mark_read_done`, `search_arxiv` and
`ask_clarification` (these are exactly the names declared by
`get_task_tools`); for every function call whose name is outside this
set or missing, `execute_function_call` returns a result of type
`'error'` and leaves the data store unchanged. -/
theorem C4_fixed_function_set (now : Nat) (arx : String → ArxivRes)
    (fc : FuncCall) (db : DB) (u : String)
    (h : ∀ s ∈ get_task_tools_names, fc.name ≠ some s) :
    (∀ s, s ∈ get_task_tools_names ↔ s ∈
      ["add_task", "update_task", "delete_task", "mark_task_done", "add_read",
       "update_read", "delete_read", "mark_read_done", "search_arxiv",
       "ask_clarification"]) ∧
    (execute_function_call now arx fc db u).1.type = "error" ∧
    (execute_function_call now arx fc db u).2 = db := by
  refine ⟨fun s => by simp [get_task_tools_names]; tauto, ?_⟩
  rcases hn : fc.name with _ | n
  · constructor <;> simp [execute_function_call, hn]
  · have hmem : ∀ s ∈ get_task_tools_names, ¬(n = s) := by
      intro s hs e
      exact h s hs (by rw [hn, e])
    have h1 := hmem "add_task" (by simp [get_task_tools_names])
    have h2 := hmem "update_task" (by simp [get_task_tools_names])
    have h3 := hmem "delete_task" (by simp [get_task_tools_names])
    have h4 := hmem "mark_task_done" (by simp [get_task_tools_names])
    have h5 := hmem "ask_clarification" (by simp [get_task_tools_names])
    have h6 := hmem "add_read" (by simp [get_task_tools_names])
    have h7 := hmem "update_read" (by simp [get_task_tools_names])
    have h8 := hmem "delete_read" (by simp [get_task_tools_names])
    have h9 := hmem "mark_read_done" (by simp [get_task_tools_names])
    have h10 := hmem "search_arxiv" (by simp [get_task_tools_names])
    by_cases h0 : n = ""
    · constructor <;> simp [execute_function_call, hn, h0]
    · constructor <;>
        simp [execute_function_call, hn, h0, h1, h2, h3, h4, h5, h6, h7, h8, h9, h10]

/-- Witness for C4 at a concrete call: the name `drop_all_tables` is
outside the declared set, the result is an error, and a one-task store
is untouched. -/
theorem C4_fixed_function_set_witness :
    (∀ s ∈ get_task_tools_names,
      (FuncCall.mk (some "drop_all_tables") {}).name ≠ some s) ∧
    (execute_function_call 0 (fun _ => {}) ⟨some "drop_all_tables", {}⟩
      { DB.empty with tasks := [⟨1, "t", "", "a@fydy.ai", "pending", 0, 0⟩] }
      "a@fydy.ai").1.type = "error" ∧
    (execute_function_call 0 (fun _ => {}) ⟨some "drop_all_tables", {}⟩
      { DB.empty with tasks := [⟨1, "t", "", "a@fydy.ai", "pending", 0, 0⟩] }
      "a@fydy.ai").2 =
      { DB.empty with tasks := [⟨1, "t", "", "a@fydy.ai", "pending", 0, 0⟩] } := by
  refine ⟨by decide, ?_, ?_⟩
  · exact (C4_fixed_function_set 0 (fun _ => {}) ⟨some "drop_all_tables", {}⟩
      { DB.empty with tasks := [⟨1, "t", "", "a@fydy.ai", "pending", 0, 0⟩] }
      "a@fydy.ai" (by decide)).2.1
  · exact (C4_fixed_function_set 0 (fun _ => {}) ⟨some "drop_all_tables", {}⟩
      { DB.empty with tasks := [⟨1, "t", "", "a@fydy.ai", "pending", 0, 0⟩] }
      "a@fydy.ai" (by decide)).2.2

/-- Which table the six id-addressed assistant operations look the row
up in: the three task operations consult `tasks`, the three read
operations consult `reads`. -/
def rowWithIdExists (db : DB) (name : Option String) (i : Int) : Prop :=
  if name = some "update_task" ∨ name = some "delete_task" ∨
     name = some "mark_task_done" then
    ∃ t ∈ db.tasks, t.id = i
  else
    ∃ r ∈ db.reads, r.id = i

/-- C8: For every assistant call to `update_task`, `delete_task`,
`mark_task_done`, `update_read`, `delete_read` or `mark_read_done`
whose `id` argument is missing or names no existing row,
`execute_function_call` returns an `'error'` result and the store is
unchanged: each of these operations looks the row up before mutating
anything. -/
theorem C8_id_ops_guarded (now : Nat) (arx : String → ArxivRes)
    (fc : FuncCall) (db : DB) (u : String)
    (hname : fc.name = some "update_task" ∨ fc.name = some "delete_task" ∨
             fc.name = some "mark_task_done" ∨ fc.name = some "update_read" ∨
             fc.name = some "delete_read" ∨ fc.name = some "mark_read_done")
    (hid : fc.args.id = none ∨
           ∀ i, fc.args.id = some i → ¬ rowWithIdExists db fc.name i) :
    (execute_function_call now arx fc db u).1.type = "error" ∧
    (execute_function_call now arx fc db u).2 = db := by
  have taskCase : ∀ hn : fc.name = some "update_task" ∨ fc.name = some "delete_task" ∨
      fc.name = some "mark_task_done",
      ∀ i, fc.args.id = some i →
      db.tasks.find? (fun x => x.id = i) = none := by
    intro hn i harg
    rcases hid with hid | hid
    · rw [hid] at harg; exact absurd harg (by simp)
    · rw [List.find?_eq_none]
      intro t ht
      simp only [decide_eq_true_eq]
      intro e
      exact hid i harg (by rw [rowWithIdExists, if_pos hn]; exact ⟨t, ht, e⟩)
  have readCase : ∀ hn : fc.name = some "update_read" ∨ fc.name = some "delete_read" ∨
      fc.name = some "mark_read_done",
      (¬(fc.name = some "update_task" ∨ fc.name = some "delete_task" ∨
          fc.name = some "mark_task_done")) →
      ∀ i, fc.args.id = some i →
      db.reads.find? (fun x => x.id = i) = none := by
    intro hn hnot i harg
    rcases hid with hid | hid
    · rw [hid] at harg; exact absurd harg (by simp)
    · rw [List.find?_eq_none]
      intro r hr
      simp only [decide_eq_true_eq]
      intro e
      exact hid i harg (by rw [rowWithIdExists, if_neg hnot]; exact ⟨r, hr, e⟩)
  rcases hname with hn | hn | hn | hn | hn | hn
  · rcases harg : fc.args.id with _ | i
    · constructor <;> simp [execute_function_call, hn, harg]
    · by_cases hz : i = 0
      · constructor <;> simp [execute_function_call, hn, harg, hz]
      · have hf := taskCase (Or.inl hn) i harg
        constructor <;> simp [execute_function_call, hn, harg, hz, hf]
  · rcases harg : fc.args.id with _ | i
    · constructor <;> simp [execute_function_call, hn, harg]
    · by_cases hz : i = 0
      · constructor <;> simp [execute_function_call, hn, harg, hz]
      · have hf := taskCase (Or.inr (Or.inl hn)) i harg
        constructor <;> simp [execute_function_call, hn, harg, hz, hf]
  · rcases harg : fc.args.id with _ | i
    · constructor <;> simp [execute_function_call, hn, harg]
    · by_cases hz : i = 0
      · constructor <;> simp [execute_function_call, hn, harg, hz]
      · have hf := taskCase (Or.inr (Or.inr hn)) i harg
        constructor <;> simp [execute_function_call, hn, harg, hz, hf]
  · rcases harg : fc.args.id with _ | i
    · constructor <;> simp [execute_function_call, hn, harg]
    · by_cases hz : i = 0
      · constructor <;> simp [execute_function_call, hn, harg, hz]
      · have hf := readCase (Or.inl hn) (by simp [hn]) i harg
        constructor <;> simp [execute_function_call, hn, harg, hz, hf]
  · rcases harg : fc.args.id with _ | i
    · constructor <;> simp [execute_function_call, hn, harg]
    · by_cases hz : i = 0
      · constructor <;> simp [execute_function_call, hn, harg, hz]
      · have hf := readCase (Or.inr (Or.inl hn)) (by simp [hn]) i harg
        constructor <;> simp [execute_function_call, hn, harg, hz, hf]
  · rcases harg : fc.args.id with _ | i
    · constructor <;> simp [execute_function_call, hn, harg]
    · by_cases hz : i = 0
      · constructor <;> simp [execute_function_call, hn, harg, hz]
      · have hf := readCase (Or.inr (Or.inr hn)) (by simp [hn]) i harg
        constructor <;> simp [execute_function_call, hn, harg, hz, hf]

/-- Witness for C8: `delete_task` with id 7 against a store holding only
task 1 errors out and deletes nothing. -/
theorem C8_id_ops_guarded_witness :
    (execute_function_call 0 (fun _ => {})
      ⟨some "delete_task", { id := some 7 }⟩
      { DB.empty with tasks := [⟨1, "t", "", "a@fydy.ai", "pending", 0, 0⟩] }
      "a@fydy.ai").1.type = "error" ∧
    (execute_function_call 0 (fun _ => {})
      ⟨some "delete_task", { id := some 7 }⟩
      { DB.empty with tasks := [⟨1, "t", "", "a@fydy.ai", "pending", 0, 0⟩] }
      "a@fydy.ai").2 =
      { DB.empty with tasks := [⟨1, "t", "", "a@fydy.ai", "pending", 0, 0⟩] } :=
  C8_id_ops_guarded 0 (fun _ => {}) ⟨some "delete_task", { id := some 7 }⟩
    { DB.empty with tasks := [⟨1, "t", "", "a@fydy.ai", "pending", 0, 0⟩] }
    "a@fydy.ai" (by simp)
    (Or.inr (by intro i harg; simp at harg; subst harg; rw [rowWithIdExists]; decide))

theorem authenticate_fst_of_find_none (now : Nat) (tok : String) (db : DB)
    (h : db.magic_links.find?
      (fun (l : MagicLink) => l.token = tok ∧ l.used = 0 ∧ now < l.expires_at)
      = none) :
    (authenticate now tok db).1 = .invalidLink "Invalid or expired link" := by
  unfold authenticate
  rw [h]

/-- C3: `authenticate(token)` establishes a logged-in session if and
only if a `magic_links` row exists with that exact token, `used = 0` and
`expires_at` strictly in the future; otherwise it renders
`'Invalid or expired link'`.  On success the matching row's `used` flag
becomes 1, so a second `authenticate` with the same token is rejected
with `'Invalid or expired link'` (the token is unique in the table — the
schema declares `token TEXT UNIQUE`).  A link created by `login` expires
exactly 15 minutes after its creation time. -/
theorem C3_magic_link_auth (now now' : Nat) (tok : String) (db : DB)
    (hUniq : ∀ l1 ∈ db.magic_links, ∀ l2 ∈ db.magic_links,
       l1.token = tok → l2.token = tok → l1 = l2) :
    ((authenticate now tok db).1.success = true ↔
       ∃ l ∈ db.magic_links, l.token = tok ∧ l.used = 0 ∧ now < l.expires_at) ∧
    ((¬ ∃ l ∈ db.magic_links, l.token = tok ∧ l.used = 0 ∧ now < l.expires_at) →
       (authenticate now tok db).1 = .invalidLink "Invalid or expired link") ∧
    ((authenticate now tok db).1.success = true →
       (∀ l ∈ (authenticate now tok db).2.magic_links, l.token = tok → l.used = 1) ∧
       (authenticate now' tok (authenticate now tok db).2).1 =
         .invalidLink "Invalid or expired link") ∧
    (∀ (emailTok raw : String), ∀ l ∈ (login now emailTok raw db).2.magic_links,
       l ∈ db.magic_links ∨
       (l.created_at = now ∧ l.expires_at = l.created_at + 15 * 60)) := by
  rcases hfind : db.magic_links.find?
      (fun (l : MagicLink) => l.token = tok ∧ l.used = 0 ∧ now < l.expires_at)
    with _ | link
  · have hnone : ∀ l ∈ db.magic_links,
        ¬(l.token = tok ∧ l.used = 0 ∧ now < l.expires_at) := by
      intro l hl
      have := List.find?_eq_none.mp hfind l hl
      simpa using this
    have hauth : authenticate now tok db =
        (.invalidLink "Invalid or expired link", db) := by
      unfold authenticate
      rw [hfind]
    refine ⟨?_, ?_, ?_, ?_⟩
    · rw [hauth]
      constructor
      · intro h; exact absurd h (by simp [AuthRes.success])
      · rintro ⟨l, hl, hc⟩; exact absurd hc (hnone l hl)
    · intro _; rw [hauth]
    · intro h
      rw [hauth] at h
      exact absurd h (by simp [AuthRes.success])
    · intro emailTok raw l hl
      rw [login] at hl
      by_cases h1 : pyStrip (pyLower raw) = ""
      · rw [if_pos h1] at hl; exact Or.inl hl
      · rw [if_neg h1] at hl
        by_cases h2 : pyEndsWith (pyStrip (pyLower raw)) "@fydy.ai" = false
        · rw [if_pos h2] at hl; exact Or.inl hl
        · rw [if_neg h2] at hl
          simp only [List.mem_append, List.mem_singleton] at hl
          rcases hl with hl | hl
          · exact Or.inl hl
          · subst hl; exact Or.inr ⟨rfl, rfl⟩
  · have hmemL := List.mem_of_find?_eq_some hfind
    have hpredL : link.token = tok ∧ link.used = 0 ∧ now < link.expires_at := by
      have := List.find?_some hfind
      simpa using this
    have hsucc : (authenticate now tok db).1.success = true ∧
        (authenticate now tok db).2.magic_links =
          db.magic_links.map (fun (l : MagicLink) =>
            if l.id = link.id then { l with used := 1 } else l) := by
      unfold authenticate
      rw [hfind]
      dsimp only
      rcases hu : db.users.find? (fun (u : UserRow) => u.email = link.email)
        with _ | user
      · exact ⟨rfl, rfl⟩
      · exact ⟨rfl, rfl⟩
    have hused : ∀ l ∈ (authenticate now tok db).2.magic_links,
        l.token = tok → l.used = 1 := by
      rw [hsucc.2]
      intro l hl htok
      rcases List.mem_map.mp hl with ⟨l0, hl0, heq⟩
      by_cases hid : l0.id = link.id
      · rw [← heq]; simp [hid]
      · rw [if_neg hid] at heq
        subst heq
        have : l0 = link := hUniq l0 hl0 link hmemL htok hpredL.1
        exact absurd (by rw [this]) hid
    refine ⟨?_, ?_, ?_, ?_⟩
    · exact ⟨fun _ => ⟨link, hmemL, hpredL⟩, fun _ => hsucc.1⟩
    · intro h; exact absurd ⟨link, hmemL, hpredL⟩ h
    · intro _
      refine ⟨hused, ?_⟩
      have hn2 : (authenticate now tok db).2.magic_links.find?
          (fun (l : MagicLink) => l.token = tok ∧ l.used = 0 ∧ now' < l.expires_at)
          = none := by
        rw [List.find?_eq_none]
        intro l hl
        simp only [decide_eq_true_eq, not_and]
        intro htok hu
        exact absurd (hused l hl htok) (by rw [hu]; decide)
      exact authenticate_fst_of_find_none now' tok _ hn2
    · intro emailTok raw l hl
      rw [login] at hl
      by_cases h1 : pyStrip (pyLower raw) = ""
      · rw [if_pos h1] at hl; exact Or.inl hl
      · rw [if_neg h1] at hl
        by_cases h2 : pyEndsWith (pyStrip (pyLower raw)) "@fydy.ai" = false
        · rw [if_pos h2] at hl; exact Or.inl hl
        · rw [if_neg h2] at hl
          simp only [List.mem_append, List.mem_singleton] at hl
          rcases hl with hl | hl
          · exact Or.inl hl
          · subst hl; exact Or.inr ⟨rfl, rfl⟩

/-- A one-row `magic_links` store used to witness C3: token `"T"`,
unused, expiring at time 1000. -/
def dbC3 : DB :=
  { DB.empty with magic_links := [⟨1, "a@fydy.ai", "T", 1000, 0, 0⟩] }

/-- Witness for C3: at time 10 the link logs the user in, the row is
marked used, and a replay at time 99 is rejected. -/
theorem C3_magic_link_auth_witness :
    (authenticate 10 "T" dbC3).1.success = true ∧
    (∀ l ∈ (authenticate 10 "T" dbC3).2.magic_links, l.token = "T" → l.used = 1) ∧
    (authenticate 99 "T" (authenticate 10 "T" dbC3).2).1 =
      .invalidLink "Invalid or expired link" := by
  have hs : (authenticate 10 "T" dbC3).1.success = true := by decide
  have h := (C3_magic_link_auth 10 99 "T" dbC3 (by decide)).2.2.1 hs
  exact ⟨hs, h.1, h.2⟩

/-- C10: `login` creates a `magic_links` row (and sends the link) only
for email addresses that end in `@fydy.ai` after lowercasing and
trimming; an empty email renders `'Email is required'` and any other
non-`@fydy.ai` email renders an error, in both cases inserting nothing.
Consequently every stored link's email is in-domain (beyond the rows
already present), and since `authenticate` creates user accounts only
with a stored link's email, no account outside the domain can ever be
created. -/
theorem C10_login_domain_restricted (now : Nat) (tok raw : String) (db : DB) :
    (pyStrip (pyLower raw) = "" →
      login now tok raw db = (.emailRequired, db)) ∧
    (pyStrip (pyLower raw) ≠ "" → pyEndsWith (pyStrip (pyLower raw)) "@fydy.ai" = false →
      login now tok raw db = (.domainError, db)) ∧
    (pyStrip (pyLower raw) ≠ "" → pyEndsWith (pyStrip (pyLower raw)) "@fydy.ai" = true →
      (login now tok raw db).2.magic_links =
        db.magic_links ++
          [⟨db.next_link_id, pyStrip (pyLower raw), tok, now + 15 * 60, 0, now⟩] ∧
      (login now tok raw db).1 = .linkSent (pyStrip (pyLower raw))) ∧
    (∀ l ∈ (login now tok raw db).2.magic_links,
      l ∈ db.magic_links ∨ pyEndsWith l.email "@fydy.ai" = true) ∧
    ((∀ l ∈ db.magic_links, pyEndsWith l.email "@fydy.ai" = true) →
      ∀ u ∈ (authenticate now tok db).2.users,
        u ∈ db.users ∨ pyEndsWith u.email "@fydy.ai" = true) := by
  refine ⟨?_, ?_, ?_, ?_, ?_⟩
  · intro h1; simp [login, h1]
  · intro h1 h2; simp [login, h1, h2]
  · intro h1 h2
    constructor <;> simp [login, h1, h2]
  · intro l hl
    rw [login] at hl
    by_cases h1 : pyStrip (pyLower raw) = ""
    · rw [if_pos h1] at hl; exact Or.inl hl
    · rw [if_neg h1] at hl
      by_cases h2 : pyEndsWith (pyStrip (pyLower raw)) "@fydy.ai" = false
      · rw [if_pos h2] at hl; exact Or.inl hl
      · rw [if_neg h2] at hl
        simp only [List.mem_append, List.mem_singleton] at hl
        rcases hl with hl | hl
        · exact Or.inl hl
        · subst hl
          exact Or.inr (by simpa using h2)
  · intro hall u hu
    rcases hfind : db.magic_links.find?
        (fun (l : MagicLink) => l.token = tok ∧ l.used = 0 ∧ now < l.expires_at)
      with _ | link
    · left
      unfold authenticate at hu
      rw [hfind] at hu
      exact hu
    · have hmemL := List.mem_of_find?_eq_some hfind
      unfold authenticate at hu
      rw [hfind] at hu
      dsimp only at hu
      rcases hu2 : db.users.find? (fun (u : UserRow) => u.email = link.email)
        with _ | user
      · rw [hu2] at hu
        dsimp only at hu
        simp only [List.mem_append, List.mem_singleton] at hu
        rcases hu with hu | hu
        · exact Or.inl hu
        · subst hu
          exact Or.inr (hall link hmemL)
      · rw [hu2] at hu
        exact Or.inl hu

/-- Witness for C10: a gmail address is rejected without touching the
store, while a mixed-case `@fydy.ai` address (with stray whitespace) is
normalised and gets exactly one fresh link row expiring 15 minutes after
creation. -/
theorem C10_login_domain_restricted_witness :
    (pyStrip (pyLower "Bob@gmail.com") ≠ "" ∧
     pyEndsWith (pyStrip (pyLower "Bob@gmail.com")) "@fydy.ai" = false ∧
     login 5 "tok" "Bob@gmail.com" DB.empty = (.domainError, DB.empty)) ∧
    (pyStrip (pyLower " Alice@FYDY.AI") ≠ "" ∧
     pyEndsWith (pyStrip (pyLower " Alice@FYDY.AI")) "@fydy.ai" = true ∧
     (login 5 "tok" " Alice@FYDY.AI" DB.empty).2.magic_links =
       [⟨1, "alice@fydy.ai", "tok", 5 + 15 * 60, 0, 5⟩]) := by
  refine ⟨⟨by decide, by decide, ?_⟩, ⟨by decide, by decide, ?_⟩⟩
  · exact (C10_login_domain_restricted 5 "tok" "Bob@gmail.com" DB.empty).2.1
      (by decide) (by decide)
  · have h := (C10_login_domain_restricted 5 "tok" " Alice@FYDY.AI" DB.empty).2.2.1
      (by decide) (by decide)
    rw [h.1]
    decide

theorem pyReplaceQs_eq_spec (q : List Char) :
    pyReplaceQs q = specReplacePlaceholders q := by
  induction q with
  | nil => rfl
  | cons c cs ih =>
    simp only [pyReplaceQs, specReplacePlaceholders, List.map_cons,
      List.flatten_cons] at *
    rw [ih]

theorem dedupFirstAux_eq_self (l : List String) : ∀ (seen : List String),
    l.Nodup → (∀ k ∈ l, k ∉ seen) → dedupFirstAux seen l = l := by
  induction l with
  | nil => intro seen _ _; rfl
  | cons k rest ih =>
    intro seen hnd hdisj
    rw [dedupFirstAux, if_neg (hdisj k (by simp))]
    congr 1
    apply ih
    · exact (List.nodup_cons.mp hnd).2
    · intro x hx
      simp only [List.mem_cons, not_or]
      refine ⟨?_, hdisj x (List.mem_cons_of_mem _ hx)⟩
      intro he
      exact (List.nodup_cons.mp hnd).1 (he ▸ hx)

theorem pgRowGet_eq_sqliteRowGet {V : Type} (cols : List String)
    (vals : List V) (key : String) (hlen : cols.length = vals.length)
    (hnd : (cols.map pyLower).Nodup) (hk : key ∈ cols) :
    pgRowGet cols vals key = sqliteRowGet cols vals key := by
  induction cols generalizing vals with
  | nil => cases hk
  | cons c cs ih =>
    rcases vals with _ | ⟨v, vs⟩
    · simp at hlen
    · have hlen' : cs.length = vs.length := by simpa using hlen
      have hnd0 := List.nodup_cons.mp (by simpa using hnd :
        (pyLower c :: cs.map pyLower).Nodup)
      have hhead : pyLower c ∉ cs.map pyLower := hnd0.1
      have hnd' : (cs.map pyLower).Nodup := hnd0.2
      unfold pgRowGet sqliteRowGet
      rw [List.zip_cons_cons, List.reverse_cons, List.find?_append]
      by_cases hkey : key = c
      · subst hkey
        have hnoneRest : (cs.zip vs).reverse.find?
            (fun (p : String × V) => p.1 = key) = none := by
          rw [List.find?_eq_none]
          intro p hp
          simp only [decide_eq_true_eq]
          intro he
          have hmem : p.1 ∈ cs := (List.of_mem_zip (List.mem_reverse.mp hp)).1
          rw [he] at hmem
          exact hhead (List.mem_map_of_mem pyLower hmem)
        rw [hnoneRest]
        simp [List.find?, ciEq]
      · have hkcs : key ∈ cs := by
          rcases List.mem_cons.mp hk with h | h
          · exact absurd h hkey
          · exact h
        have hciEq : ciEq c key = false := by
          simp only [ciEq, decide_eq_false_iff_not]
          intro he
          exact hhead (he ▸ List.mem_map_of_mem pyLower hkcs)
        have hsingle : List.find? (fun (p : String × V) => p.1 = key)
            [(c, v)] = none := by
          rw [List.find?_eq_none]
          intro p hp
          simp only [List.mem_singleton] at hp
          subst hp
          simp only [decide_eq_true_eq]
          exact fun he => hkey he.symm
        rw [hsingle]
        have hrec := ih vs hlen' hnd' hkcs
        unfold pgRowGet sqliteRowGet at hrec
        simp only [Option.or_none, List.find?, hciEq]
        exact hrec

theorem pgRowKeys_eq_sqliteRowKeys {V : Type} (cols : List String)
    (vals : List V) (hlen : cols.length = vals.length)
    (hnd : cols.Nodup) :
    pgRowKeys cols vals = sqliteRowKeys cols vals := by
  unfold pgRowKeys sqliteRowKeys dedupFirst
  rw [List.map_fst_zip cols vals (le_of_eq hlen)]
  exact dedupFirstAux_eq_self cols [] hnd (by simp)

/-- C5: The dual-dialect shim makes the two dialects observationally
equivalent.  `execute_query` under `USE_CLOUD_SQL` runs the query with
every `?` placeholder replaced by `%s` (and passes the text through
unchanged otherwise); `fetchone` wraps PostgreSQL tuple rows in
`PgRowWrapper`, and for any row data whose column names are distinct
(even up to the ASCII case folding that `sqlite3.Row` lookup applies),
access by column name and `keys()` on the wrapper agree with
`sqlite3.Row` access on the same data. -/
theorem C5_dialect_shim_equiv {V : Type} (q : List Char)
    (cols : List String) (vals : List V) (key : String)
    (hlen : cols.length = vals.length)
    (hnd : (cols.map pyLower).Nodup) (hk : key ∈ cols) :
    execute_query_text true q = specReplacePlaceholders q ∧
    execute_query_text false q = q ∧
    (∀ raw : Option (List V), fetchone true cols raw =
       raw.map (fun r => DbRow.pgWrapped cols r)) ∧
    (∀ raw : Option (List V), fetchone false cols raw =
       raw.map (fun r => DbRow.sqliteRaw cols r)) ∧
    rowGet (DbRow.pgWrapped cols vals) key =
      rowGet (DbRow.sqliteRaw cols vals) key ∧
    rowKeys (DbRow.pgWrapped cols vals) =
      rowKeys (DbRow.sqliteRaw cols vals) := by
  refine ⟨pyReplaceQs_eq_spec q, rfl, ?_, ?_, ?_, ?_⟩
  · intro raw; cases raw <;> rfl
  · intro raw; cases raw <;> rfl
  · exact pgRowGet_eq_sqliteRowGet cols vals key hlen hnd hk
  · exact pgRowKeys_eq_sqliteRowKeys cols vals hlen (hnd.of_map pyLower)

/-- Witness for C5 on a concrete query and row: a two-column row with
mixed-case column names, fetched under both dialects, agrees on lookup
and `keys()`, and the placeholder rewrite fires on a query containing
two placeholders. -/
theorem C5_dialect_shim_equiv_witness :
    (["Id", "title"].length = ([7, 9] : List Nat).length ∧
     ((["Id", "title"].map pyLower).Nodup) ∧ "Id" ∈ ["Id", "title"]) ∧
    execute_query_text true ("a=? and b=?".data) =
      specReplacePlaceholders ("a=? and b=?".data) ∧
    rowGet (DbRow.pgWrapped ["Id", "title"] ([7, 9] : List Nat)) "Id" =
      rowGet (DbRow.sqliteRaw ["Id", "title"] ([7, 9] : List Nat)) "Id" ∧
    rowKeys (DbRow.pgWrapped ["Id", "title"] ([7, 9] : List Nat)) =
      rowKeys (DbRow.sqliteRaw ["Id", "title"] ([7, 9] : List Nat)) := by
  have h := C5_dialect_shim_equiv ("a=? and b=?".data) ["Id", "title"]
    ([7, 9] : List Nat) "Id" (by decide) (by decide) (by decide)
  exact ⟨⟨by decide, by decide, by decide⟩, h.1, h.2.2.2.2.1, h.2.2.2.2.2⟩

/-- C7: The optional calendar integration is read-only and feeds the
task view: `get_calendar_events` takes no store at all and returns `[]`
whenever the integration is unavailable, unconfigured or failing; the
whole `GET /api/tasks` request leaves the store untouched; and the
calendar events are prepended before the stored tasks exactly when no
(truthy) status filter or the `'pending'` filter is given, never
otherwise. -/
theorem C7_calendar_read_only (env : CalEnv) (nowIso : String)
    (status : Option String) (db : DB) (sess : String) :
    ((env.available = false ∨ env.credentials = none ∨
      env.credentials = some "" ∨ env.api = none) →
      get_calendar_events env nowIso = []) ∧
    (get_tasks env nowIso status db sess).2 = db ∧
    ((strTruthy status = false ∨ status = some "pending") →
      (get_tasks env nowIso status db sess).1 =
        (get_calendar_events env nowIso).map TaskEntry.cal ++
          (orderTasksDesc db.tasks).map TaskEntry.task) ∧
    ((strTruthy status = true ∧ status ≠ some "pending") →
      ∀ e, TaskEntry.cal e ∉ (get_tasks env nowIso status db sess).1) := by
  refine ⟨?_, rfl, ?_, ?_⟩
  · intro h
    rcases h with h | h | h | h
    · simp [get_calendar_events, h]
    · simp [get_calendar_events, h, strTruthy]
    · simp [get_calendar_events, h, strTruthy]
    · simp only [get_calendar_events, h]
      split
      · rfl
      · split
        · rfl
        · rfl
  · intro h
    have hcond : ¬(strTruthy status = true ∧ ¬(status = some "pending")) := by
      rcases h with h | h
      · intro hc; rw [h] at hc; exact absurd hc.1 (by simp)
      · intro hc; exact hc.2 h
    simp only [get_tasks]
    rw [if_neg hcond, if_pos h]
  · rintro ⟨h1, h2⟩ e
    have hcond2 : ¬(strTruthy status = false ∨ status = some "pending") := by
      rintro (h | h)
      · rw [h1] at h; cases h
      · exact h2 h
    simp only [get_tasks]
    rw [if_neg hcond2]
    simp

/-- Witness for C7: with the integration unavailable, events are `[]`;
a `'pending'`-filtered request on a one-task store prepends the (empty)
events before all tasks and changes nothing, while a `'done'`-filtered
request includes no calendar entry. -/
theorem C7_calendar_read_only_witness :
    get_calendar_events ⟨false, none, none⟩ "now" = [] ∧
    (get_tasks ⟨false, none, none⟩ "now" (some "pending")
      { DB.empty with tasks := [⟨1, "t", "", "a@fydy.ai", "done", 0, 0⟩] }
      "u@fydy.ai").2 =
      { DB.empty with tasks := [⟨1, "t", "", "a@fydy.ai", "done", 0, 0⟩] } ∧
    (get_tasks ⟨false, none, none⟩ "now" (some "pending")
      { DB.empty with tasks := [⟨1, "t", "", "a@fydy.ai", "done", 0, 0⟩] }
      "u@fydy.ai").1 =
      (get_calendar_events ⟨false, none, none⟩ "now").map TaskEntry.cal ++
        (orderTasksDesc [⟨1, "t", "", "a@fydy.ai", "done", 0, 0⟩]).map
          TaskEntry.task ∧
    TaskEntry.cal ⟨"cal_x", "t", "", "EVENT", none, none, "calendar", "c"⟩ ∉
      (get_tasks ⟨false, none, none⟩ "now" (some "done")
        { DB.empty with tasks := [⟨1, "t", "", "a@fydy.ai", "done", 0, 0⟩] }
        "u@fydy.ai").1 := by
  have h := C7_calendar_read_only ⟨false, none, none⟩ "now" (some "pending")
    { DB.empty with tasks := [⟨1, "t", "", "a@fydy.ai", "done", 0, 0⟩] }
    "u@fydy.ai"
  have h2 := C7_calendar_read_only ⟨false, none, none⟩ "now" (some "done")
    { DB.empty with tasks := [⟨1, "t", "", "a@fydy.ai", "done", 0, 0⟩] }
    "u@fydy.ai"
  exact ⟨h.1 (Or.inl rfl), h.2.1, h.2.2.1 (Or.inr rfl),
    h2.2.2.2 ⟨by decide, by decide⟩ _⟩

/-- A one-task store (the task's status is `'done'`) used to refute C9
as stated. -/
def dbC9 : DB :=
  { DB.empty with tasks := [⟨1, "t", "", "a@fydy.ai", "done", 0, 0⟩] }

/-- Counterexample to C9 as stated: the empty status value (`?status=`)
is present and different from `'pending'`, yet `GET /api/tasks` returns
all tasks — here a task whose status is `'done'`, not the empty string —
rather than exactly the tasks whose status equals the given value. -/
theorem C9_counterexample :
    (some "" ≠ (none : Option String) ∧ some "" ≠ some "pending") ∧
    (get_tasks ⟨false, none, none⟩ "now" (some "") dbC9 "u@fydy.ai").1 =
      [TaskEntry.task ⟨1, "t", "", "a@fydy.ai", "done", 0, 0⟩] ∧
    (get_tasks ⟨false, none, none⟩ "now" (some "") dbC9 "u@fydy.ai").1 ≠
      (orderTasksDesc (dbC9.tasks.filter (fun t => t.status = ""))).map
        TaskEntry.task := by
  refine ⟨⟨by decide, by decide⟩, by decide, by decide⟩

/-- C9 (amended): `GET /api/tasks` applies its status filter only when
the status parameter is present, non-empty and different from
`'pending'`; an absent, empty or `'pending'` status returns all tasks
(`?status=pending` and `?status=` both return the same response as no
filter), while any other non-empty value returns exactly the tasks whose
status equals that value. -/
theorem C9_status_filter_amended (env : CalEnv) (nowIso : String)
    (db : DB) (sess : String) :
    (get_tasks env nowIso (some "pending") db sess =
      get_tasks env nowIso none db sess) ∧
    (get_tasks env nowIso (some "") db sess =
      get_tasks env nowIso none db sess) ∧
    (∀ v : String, v ≠ "" → v ≠ "pending" →
      ((get_tasks env nowIso (some v) db sess).1 =
        (orderTasksDesc (db.tasks.filter (fun t => t.status = v))).map
          TaskEntry.task ∧
       (∀ t : Task, TaskEntry.task t ∈ (get_tasks env nowIso (some v) db sess).1 ↔
          t ∈ db.tasks ∧ t.status = v))) := by
  refine ⟨rfl, rfl, ?_⟩
  intro v hv1 hv2
  have hc1 : strTruthy (some v) = true ∧ ¬((some v : Option String) = some "pending") := by
    constructor
    · simp [strTruthy, hv1]
    · simp [hv2]
  have hc2 : ¬(strTruthy (some v) = false ∨ (some v : Option String) = some "pending") := by
    rintro (h | h)
    · rw [hc1.1] at h; cases h
    · simp at h; exact hv2 h
  constructor
  · simp only [get_tasks]
    rw [if_neg hc2, if_pos hc1]
    rfl
  · intro t
    simp only [get_tasks]
    rw [if_neg hc2, if_pos hc1]
    simp only [List.mem_map, orderTasksDesc, mem_sortLe, List.mem_filter,
      Option.getD_some, decide_eq_true_eq]
    constructor
    · rintro ⟨a, ⟨ha, hs⟩, he⟩
      cases he
      exact ⟨ha, hs⟩
    · rintro ⟨ha, hs⟩
      exact ⟨t, ⟨ha, hs⟩, rfl⟩

/-- Witness for C9 (amended): on the one-`'done'`-task store, a
`?status=done` request returns exactly that task, and it is a member of
the response exactly because its status is `'done'`. -/
theorem C9_status_filter_amended_witness :
    ("done" ≠ "" ∧ "done" ≠ "pending") ∧
    (get_tasks ⟨false, none, none⟩ "now" (some "done") dbC9 "u@fydy.ai").1 =
      (orderTasksDesc (dbC9.tasks.filter (fun t => t.status = "done"))).map
        TaskEntry.task ∧
    (TaskEntry.task ⟨1, "t", "", "a@fydy.ai", "done", 0, 0⟩ ∈
      (get_tasks ⟨false, none, none⟩ "now" (some "done") dbC9 "u@fydy.ai").1 ↔
      (⟨1, "t", "", "a@fydy.ai", "done", 0, 0⟩ : Task) ∈ dbC9.tasks ∧
        ("done" : String) = "done") := by
  have h := (C9_status_filter_amended ⟨false, none, none⟩ "now" dbC9
    "u@fydy.ai").2.2 "done" (by decide) (by decide)
  exact ⟨⟨by decide, by decide⟩, h.1, h.2 _⟩

/-- Counterexample to C1 as stated: the store behind `/api/tasks` and
`/api/reads` is not scoped per user.  Starting from an empty store, a
task (resp. reading-list entry) created by `alice@fydy.ai` through the
assistant's `add_task` (resp. `add_read`) function changes what the
distinct logged-in user `bob@fydy.ai` reads back from `GET /api/tasks`
(resp. `GET /api/reads`). -/
theorem C1_counterexample :
    ("alice@fydy.ai" : String) ≠ "bob@fydy.ai" ∧
    (get_tasks ⟨false, none, none⟩ "now" none
      (execute_function_call 3 (fun _ => {})
        ⟨some "add_task", { title := some "Ship it" }⟩ DB.empty
        "alice@fydy.ai").2
      "bob@fydy.ai").1 ≠
      (get_tasks ⟨false, none, none⟩ "now" none DB.empty "bob@fydy.ai").1 ∧
    (get_reads none
      (execute_function_call 3 (fun _ => {})
        ⟨some "add_read", { title := some "Attention Is All You Need" }⟩
        DB.empty "alice@fydy.ai").2
      "bob@fydy.ai").1 ≠
      (get_reads none DB.empty "bob@fydy.ai").1 := by
  refine ⟨by decide, by decide, by decide⟩

/-- C1 (amended): the tracker's task and reading-list stores are shared
across users, not multi-tenant: `GET /api/tasks` and `GET /api/reads`
return the same rows to every authenticated user; only the chat history
is scoped per user — `GET /api/chat/history` returns exclusively rows
whose `user_email` is the requesting session's email. -/
theorem C1_shared_store_amended (env : CalEnv) (nowIso : String)
    (status : Option String) (db : DB) (u1 u2 : String) :
    get_tasks env nowIso status db u1 = get_tasks env nowIso status db u2 ∧
    get_reads status db u1 = get_reads status db u2 ∧
    (∀ m ∈ (get_chat_history db u1).1, m.user_email = u1) := by
  refine ⟨rfl, rfl, ?_⟩
  intro m hm
  simp only [get_chat_history] at hm
  have hm2 := List.mem_of_mem_take hm
  rw [orderChatAsc, mem_sortLe] at hm2
  have := List.mem_filter.mp hm2
  simpa using this.2

/-- Witness for C1 (amended): on a store holding one chat row per user,
Alice's history request returns only rows carrying her email, and the
task/read responses are identical for the two users. -/
theorem C1_shared_store_amended_witness :
    (⟨1, "user", "hi", "alice@fydy.ai", 0⟩ : ChatMsg) ∈
      (get_chat_history
        { DB.empty with chat_history :=
            [⟨1, "user", "hi", "alice@fydy.ai", 0⟩,
             ⟨2, "user", "yo", "bob@fydy.ai", 0⟩] }
        "alice@fydy.ai").1 ∧
    (⟨1, "user", "hi", "alice@fydy.ai", 0⟩ : ChatMsg).user_email =
      "alice@fydy.ai" ∧
    get_tasks ⟨false, none, none⟩ "now" none
        { DB.empty with chat_history :=
            [⟨1, "user", "hi", "alice@fydy.ai", 0⟩,
             ⟨2, "user", "yo", "bob@fydy.ai", 0⟩] } "alice@fydy.ai" =
      get_tasks ⟨false, none, none⟩ "now" none
        { DB.empty with chat_history :=
            [⟨1, "user", "hi", "alice@fydy.ai", 0⟩,
             ⟨2, "user", "yo", "bob@fydy.ai", 0⟩] } "bob@fydy.ai" := by
  have h := C1_shared_store_amended ⟨false, none, none⟩ "now" none
    { DB.empty with chat_history :=
        [⟨1, "user", "hi", "alice@fydy.ai", 0⟩,
         ⟨2, "user", "yo", "bob@fydy.ai", 0⟩] } "alice@fydy.ai" "bob@fydy.ai"
  refine ⟨by decide, h.2.2 ⟨1, "user", "hi", "alice@fydy.ai", 0⟩ (by decide), h.1⟩

theorem stepCall_actions_nonerror (now : Nat) (arx : String → ArxivRes)
    (u : String) (c : FuncCall) (st : LoopSt)
    (h : ∀ a ∈ st.actions_performed, a.type ≠ "error") :
    ∀ a ∈ (stepCall now arx u c st).2.actions_performed, a.type ≠ "error" := by
  intro a ha
  simp only [stepCall] at ha
  split at ha
  · simp only [List.mem_append, List.mem_singleton] at ha
    rcases ha with ha | ha
    · split at ha
      · exact h a ha
      · exact h a ha
    · subst ha; decide
  · dsimp only at ha
    split at ha
    · simp only [List.mem_append, List.mem_singleton] at ha
      rcases ha with ha | ha
      · exact h a ha
      · subst ha; assumption
    · exact h a ha

theorem processCalls_actions_nonerror (now : Nat) (arx : String → ArxivRes)
    (u : String) (calls : List FuncCall) (st : LoopSt)
    (h : ∀ a ∈ st.actions_performed, a.type ≠ "error") :
    ∀ a ∈ (processCalls now arx u calls st).2.actions_performed,
      a.type ≠ "error" := by
  induction calls generalizing st with
  | nil => exact h
  | cons c rest ih =>
    simp only [processCalls]
    exact ih _ (stepCall_actions_nonerror now arx u c st h)

theorem chatLoopAux_actions_nonerror (oracle : Nat → ModelResponse)
    (now : Nat) (arx : String → ArxivRes) (u : String) (fuel : Nat)
    (resp : ModelResponse) (st : LoopSt)
    (h : ∀ a ∈ st.actions_performed, a.type ≠ "error") :
    ∀ a ∈ (chatLoopAux oracle now arx u fuel resp st).actions_performed,
      a.type ≠ "error" := by
  induction fuel generalizing resp st with
  | zero => exact h
  | succ n ih =>
    simp only [chatLoopAux]
    split
    · exact h
    · split
      · exact processCalls_actions_nonerror now arx u _ _ h
      · exact ih _ _ (processCalls_actions_nonerror now arx u _ _ h)

/-- C6: In each iteration of the chat loop, (i) the loop ends as soon as
a model response contains no function calls, only accumulating the
response text; (ii) every parsed function call is answered by exactly
one queued function response; (iii) calls are processed left to right,
(iv) a call that is not `ask_clarification` is executed against the
store via `execute_function_call`, its result dict (error or not) being
the queued function response and its store effect being kept; (v)
`ask_clarification` performs no store action and is acknowledged with
the `asked` payload; and (vi) results of type `'error'` never appear in
the actions the handler reports to the client. -/
theorem C6_chat_loop_iteration (oracle : Nat → ModelResponse) (now : Nat)
    (arx : String → ArxivRes) (u : String) :
    (∀ (fuel : Nat) (resp : ModelResponse) (st : LoopSt),
      collectCalls (partsOf resp) = [] →
      chatLoopAux oracle now arx u (fuel + 1) resp st =
        { st with ai_response := st.ai_response ++ collectText (partsOf resp) }) ∧
    (∀ (calls : List FuncCall) (st : LoopSt),
      (processCalls now arx u calls st).1.length = calls.length) ∧
    (∀ (c : FuncCall) (rest : List FuncCall) (st : LoopSt),
      processCalls now arx u (c :: rest) st =
        ((stepCall now arx u c st).1 ::
           (processCalls now arx u rest (stepCall now arx u c st).2).1,
         (processCalls now arx u rest (stepCall now arx u c st).2).2)) ∧
    (∀ (c : FuncCall) (st : LoopSt), c.name.getD "" ≠ "ask_clarification" →
      (stepCall now arx u c st).1 =
        .result (c.name.getD "") (execute_function_call now arx c st.db u).1 ∧
      (stepCall now arx u c st).2.db =
        (execute_function_call now arx c st.db u).2) ∧
    (∀ (c : FuncCall) (st : LoopSt), c.name.getD "" = "ask_clarification" →
      (stepCall now arx u c st).1 = .asked (c.name.getD "") ∧
      (stepCall now arx u c st).2.db = st.db) ∧
    (∀ (msg : String) (db : DB),
      ∀ a ∈ ((chat oracle now arx msg u db).1.elim [] ChatOut.actions),
        a.type ≠ "error") := by
  refine ⟨?_, ?_, ?_, ?_, ?_, ?_⟩
  · intro fuel resp st h
    simp only [chatLoopAux, h, List.isEmpty_nil, if_true]
  · intro calls
    induction calls with
    | nil => intro st; rfl
    | cons c rest ih =>
      intro st
      simp only [processCalls, List.length_cons]
      rw [ih]
  · intro c rest st
    rfl
  · intro c st hname
    constructor <;> simp only [stepCall, if_neg hname]
  · intro c st hname
    constructor
    · simp only [stepCall, if_pos hname]
    · simp only [stepCall, if_pos hname]
      split <;> rfl
  · intro msg db a ha
    by_cases hmsg : msg = ""
    · simp [chat, hmsg] at ha
    · simp only [chat, if_neg hmsg, Option.elim] at ha
      exact chatLoopAux_actions_nonerror oracle now arx u 5 (oracle 0)
        ⟨db, "", [], 0⟩ (by intro a ha; cases ha) a ha

/-- A model response carrying only text, no function calls. -/
def respC6text : ModelResponse :=
  ⟨some [⟨some ⟨some [{ text := some "done!" }]⟩⟩]⟩

/-- A concrete `add_task` call. -/
def callC6add : FuncCall := ⟨some "add_task", { title := some "Ship it" }⟩

/-- A concrete `ask_clarification` call. -/
def callC6clar : FuncCall :=
  ⟨some "ask_clarification", { question := some "Which repo?" }⟩

/-- A model response whose single part carries the `add_task` call. -/
def respC6call : ModelResponse :=
  ⟨some [⟨some ⟨some [{ function_call := some callC6add }]⟩⟩]⟩

/-- A concrete oracle: first an `add_task` call, then text only. -/
def oracleC6 : Nat → ModelResponse :=
  fun n => if n = 0 then respC6call else respC6text

/-- The loop state at the start of a request on an empty store. -/
def stC6 : LoopSt := ⟨DB.empty, "", [], 0⟩

/-- Witness for C6 at concrete responses/calls: a text-only response
ends the loop immediately; two calls get two queued responses; the
`add_task` call's queued response is its `execute_function_call` result;
the clarification call leaves the store untouched; and no error-typed
result is among the actions of a full concrete chat exchange. -/
theorem C6_chat_loop_iteration_witness :
    (collectCalls (partsOf respC6text) = [] ∧
     chatLoopAux oracleC6 3 (fun _ => {}) "alice@fydy.ai" 5 respC6text stC6 =
       { stC6 with
           ai_response := stC6.ai_response ++ collectText (partsOf respC6text) }) ∧
    (processCalls 3 (fun _ => {}) "alice@fydy.ai" [callC6add, callC6clar]
      stC6).1.length = 2 ∧
    (callC6add.name.getD "" ≠ "ask_clarification" ∧
     (stepCall 3 (fun _ => {}) "alice@fydy.ai" callC6add stC6).1 =
       .result "add_task"
         (execute_function_call 3 (fun _ => {}) callC6add stC6.db
           "alice@fydy.ai").1) ∧
    (callC6clar.name.getD "" = "ask_clarification" ∧
     (stepCall 3 (fun _ => {}) "alice@fydy.ai" callC6clar stC6).2.db =
       stC6.db) ∧
    ({ type := "error", message := "boom" } : FCResult) ∉
      ((chat oracleC6 3 (fun _ => {}) "hello" "alice@fydy.ai"
        DB.empty).1.elim [] ChatOut.actions) := by
  have h := C6_chat_loop_iteration oracleC6 3 (fun _ => {}) "alice@fydy.ai"
  refine ⟨⟨by decide, ?_⟩, ?_, ⟨by decide, ?_⟩, ⟨by decide, ?_⟩, ?_⟩
  · exact h.1 4 respC6text stC6 (by decide)
  · exact h.2.1 [callC6add, callC6clar] stC6
  · exact (h.2.2.2.1 callC6add stC6 (by decide)).1
  · exact (h.2.2.2.2.1 callC6clar stC6 (by decide)).2
  · intro hmem
    exact h.2.2.2.2.2 "hello" DB.empty _ hmem rfl

end MakeArjoWork
